import Mathlib

/-!
Shallow embedding of the post store of `src/app.py` (a Flask blog backed by
the JSON file `blog_posts.json`) and verification of its specification.

Modelling conventions:
* A persisted post is a JSON object whose keys `id`, `title`, `content`,
  `author`, `likes` may carry `null` or be absent.  Created posts always carry
  all five keys; per the data model only `author` and `likes` may be absent on
  older records, and `title`/`content` may be `null` (Python `None` from a
  missing form field).  We use `Option` for the nullable/absent fields.
* The file on disk is `Option FileData`: `none` when `blog_posts.json` does not
  exist (`os.path.exists` is false), `some (.wellFormed ps)` when it holds a
  well-formed JSON list of posts, `some (.malformed raw)` when `json.load`
  would raise a parse error on its contents `raw`.
* Each Flask handler is embedded as a function from the freshly loaded
  collection (plus its request parameters) to a `HandlerOut` recording the
  HTTP response and whether `save_blog_posts` was called, and with which list.
  `saved = none` means the handler returned without writing the file.
-/

namespace MasterBlog

/-- A blog post record as persisted in `blog_posts.json`. -/
structure Post where
  id : Int
  title : Option String
  content : Option String
  author : Option String
  likes : Option Int
deriving DecidableEq

/-- Contents of `blog_posts.json` when the file exists: either a well-formed
JSON list of posts or bytes on which `json.load` raises. -/
inductive FileData
  | wellFormed (posts : List Post)
  | malformed (raw : String)
deriving DecidableEq

/-- The error raised by `json.load` on malformed data (lines 16-17). -/
inductive LoadError
  | parseError
deriving DecidableEq

/-- `load_blog_posts` (lines 8-18): returns `[]` when the file is missing,
the parsed list when it is well-formed, and raises a parse error otherwise. -/
def load_blog_posts : Option FileData → Except LoadError (List Post)
  | none => .ok []
  | some (.wellFormed posts) => .ok posts
  | some (.malformed _) => .error .parseError

/-- `save_blog_posts` (lines 21-30): overwrites the file with the JSON dump
of `posts`. -/
def save_blog_posts (posts : List Post) : Option FileData :=
  some (.wellFormed posts)

/-- The scan of `fetch_post_by_id` (lines 43-47) over an already loaded
collection: the `for` loop returns the first post whose `id` matches, else
`None`.  The same scan is `next((p for p in blog_posts if ...), None)` in the
`like` handler (line 176). -/
def fetch_post_by_id (posts : List Post) (post_id : Int) : Option Post :=
  match posts with
  | [] => none
  | post :: rest =>
    if post.id = post_id then some post else fetch_post_by_id rest post_id

/-- HTTP outcome of a mutating handler: redirect to the index page, or the
`("Post not found", 404)` response. -/
inductive Resp
  | redirectIndex
  | notFound404
deriving DecidableEq

/-- Result of running a handler on the loaded collection: the response and,
when `save_blog_posts` was called, the list it wrote (`none` = no write). -/
structure HandlerOut where
  resp : Resp
  saved : Option (List Post)
deriving DecidableEq

/-- The `new_post` dict built by the `add` handler (lines 83-89):
`id = len(blog_posts) + 1`, form title/content as given (possibly `None`),
author defaulted to `"Anonymous"`, `likes = 0`. -/
def new_post (posts : List Post) (title content author : Option String) : Post :=
  { id := (posts.length : Int) + 1
    title := title
    content := content
    author := some (author.getD "Anonymous")
    likes := some 0 }

/-- The POST branch of the `add` handler (lines 74-94): append `new_post`,
save, redirect. -/
def add (posts : List Post) (title content author : Option String) : HandlerOut :=
  { resp := .redirectIndex, saved := some (posts ++ [new_post posts title content author]) }

/-- `request.form.get(key, default)` for a field whose default is the stored
(possibly null) value: the form value when the key was posted, else the
fallback. -/
def mergeField (form fallback : Option String) : Option String :=
  match form with
  | some v => some v
  | none => fallback

/-- Mutation performed at the first matching index: the Python code finds
`post_index`, the first index whose `id` matches (line 123-125), and assigns
fields of `blog_posts[post_index]`; `like` mutates the first matching dict in
place (lines 176-186).  Elements before the first match, and everything after
it, are left as they are. -/
def replaceFirst (post_id : Int) (f : Post → Post) : List Post → List Post
  | [] => []
  | post :: rest =>
    if post.id = post_id then f post :: rest else post :: replaceFirst post_id f rest

/-- The POST branch of the `update` handler (lines 99-140): 404 without
saving when no post matches (lines 118-119, checked before any mutation);
otherwise overwrite `title`/`content` with the form value when supplied (else
keep the stored value, lines 128-131) and `author` with the form value when
supplied, else the stored author defaulted to `"Anonymous"` (lines 132-134);
then save and redirect. -/
def update (posts : List Post) (post_id : Int) (title content author : Option String) : HandlerOut :=
  match fetch_post_by_id posts post_id with
  | none => { resp := .notFound404, saved := none }
  | some _post =>
    { resp := .redirectIndex
      saved := some (replaceFirst post_id (fun post =>
        { post with
            title := mergeField title post.title
            content := mergeField content post.content
            author := some (author.getD (post.author.getD "Anonymous")) }) posts) }

/-- The `delete` handler (lines 143-157): keep exactly the posts whose `id`
differs, save unconditionally, redirect. -/
def delete (posts : List Post) (post_id : Int) : HandlerOut :=
  { resp := .redirectIndex
    saved := some (posts.filter (fun post => post.id ≠ post_id)) }

/-- The `like` handler (lines 160-192): 404 without saving when no post
matches, otherwise increment `likes` of the first matching post (`+= 1` when
the key is present, set to `1` when missing, lines 183-186), save, redirect. -/
def like (posts : List Post) (post_id : Int) : HandlerOut :=
  match fetch_post_by_id posts post_id with
  | none => { resp := .notFound404, saved := none }
  | some _post =>
    { resp := .redirectIndex
      saved := some (replaceFirst post_id (fun post =>
        { post with likes := some (post.likes.getD 0 + 1) }) posts) }

/-- One store operation, as issued by the HTTP layer. -/
inductive Op
  | create (title content author : Option String)
  | edit (post_id : Int) (title content author : Option String)
  | remove (post_id : Int)
  | likePost (post_id : Int)
deriving DecidableEq

/-- Persisted collection after one handler runs on collection `posts`:
what the handler saved, or the unchanged collection when it did not save. -/
def applyOp (posts : List Post) : Op → List Post
  | .create t c a => ((add posts t c a).saved).getD posts
  | .edit i t c a => ((update posts i t c a).saved).getD posts
  | .remove i => ((delete posts i).saved).getD posts
  | .likePost i => ((like posts i).saved).getD posts

/-- Persisted collection after a sequence of handler invocations. -/
def runOps (posts : List Post) : List Op → List Post
  | [] => posts
  | op :: ops => runOps (applyOp posts op) ops

/-- Collection obtained by a sequence of Create calls (title, content,
author form fields) starting from the empty store. -/
def runCreates (forms : List (Option String × Option String × Option String)) : List Post :=
  runOps [] (forms.map (fun f => Op.create f.1 f.2.1 f.2.2))

/-! ### Helper lemmas on the first-match scan -/

theorem fetch_eq_none_of_absent (posts : List Post) (post_id : Int)
    (h : ∀ p ∈ posts, p.id ≠ post_id) :
    fetch_post_by_id posts post_id = none := by
  induction posts with
  | nil => rfl
  | cons p rest ih =>
    have hp : p.id ≠ post_id := h p (List.mem_cons_self p rest)
    have hrest : ∀ q ∈ rest, q.id ≠ post_id := fun q hq => h q (List.mem_cons_of_mem p hq)
    simp [fetch_post_by_id, hp, ih hrest]

theorem fetch_first_match (l : List Post) (p : Post) (r : List Post) (post_id : Int)
    (hl : ∀ q ∈ l, q.id ≠ post_id) (hp : p.id = post_id) :
    fetch_post_by_id (l ++ p :: r) post_id = some p := by
  induction l with
  | nil => simp [fetch_post_by_id, hp]
  | cons q l ih =>
    have hq : q.id ≠ post_id := hl q (List.mem_cons_self q l)
    have hl' : ∀ x ∈ l, x.id ≠ post_id := fun x hx => hl x (List.mem_cons_of_mem q hx)
    simp [fetch_post_by_id, hq, ih hl']

theorem replaceFirst_first_match (f : Post → Post) (l : List Post) (p : Post) (r : List Post)
    (post_id : Int) (hl : ∀ q ∈ l, q.id ≠ post_id) (hp : p.id = post_id) :
    replaceFirst post_id f (l ++ p :: r) = l ++ f p :: r := by
  induction l with
  | nil => simp [replaceFirst, hp]
  | cons q l ih =>
    have hq : q.id ≠ post_id := hl q (List.mem_cons_self q l)
    have hl' : ∀ x ∈ l, x.id ≠ post_id := fun x hx => hl x (List.mem_cons_of_mem q hx)
    simp [replaceFirst, hq, ih hl']

/-! ### Claim theorems -/

/-- C1: the claimed invariant — no two posts ever share an id, for any
sequence of operations from the empty store — is refuted by the code: after
Create, Create, Delete(1), Create the persisted collection holds two posts
with id 2, because `add` recomputes the id as `len(blog_posts) + 1` after a
non-trailing deletion. -/
theorem c1_duplicate_id_after_delete :
    (runOps [] [.create (some "A") (some "a1") none,
                .create (some "B") (some "b1") none,
                .remove 1,
                .create (some "C") (some "c1") none]).map Post.id = [2, 2] ∧
    ¬ ((runOps [] [.create (some "A") (some "a1") none,
                   .create (some "B") (some "b1") none,
                   .remove 1,
                   .create (some "C") (some "c1") none]).map Post.id).Nodup := by
  constructor
  · rfl
  · decide

/-- C5: `like` on an id absent from the collection returns the 404 response
and performs no save, so the persisted file stays byte-for-byte untouched. -/
theorem c5_like_absent_no_save (posts : List Post) (post_id : Int)
    (h : ∀ p ∈ posts, p.id ≠ post_id) :
    like posts post_id = { resp := .notFound404, saved := none } := by
  simp [like, fetch_eq_none_of_absent posts post_id h]

theorem c5_witness :
    (∀ p ∈ ([{ id := 1, title := some "T", content := some "C",
               author := some "A", likes := some 0 }] : List Post), p.id ≠ 7) ∧
    like [{ id := 1, title := some "T", content := some "C",
            author := some "A", likes := some 0 }] 7 =
      { resp := .notFound404, saved := none } := by
  refine ⟨by decide, c5_like_absent_no_save _ 7 (by decide)⟩

/-- C7: `load_blog_posts` returns the empty list (and no error) when the
file does not exist, and fails with the parse error on any malformed
contents. -/
theorem c7_load_missing_and_malformed (raw : String) :
    load_blog_posts none = .ok [] ∧
    load_blog_posts (some (.malformed raw)) = .error .parseError :=
  ⟨rfl, rfl⟩

theorem c7_witness :
    load_blog_posts none = .ok [] ∧
    load_blog_posts (some (.malformed "not json")) = .error .parseError :=
  c7_load_missing_and_malformed "not json"

/-- C9: saving the result of a successful, unmodified load produces contents
from which a second load returns the very same sequence of posts. -/
theorem c9_save_load_roundtrip (file : Option FileData) (posts : List Post)
    (h : load_blog_posts file = .ok posts) :
    load_blog_posts (save_blog_posts posts) = .ok posts :=
  rfl

theorem c9_witness :
    load_blog_posts (none : Option FileData) = .ok [] ∧
    load_blog_posts (save_blog_posts []) = .ok [] :=
  ⟨rfl, c9_save_load_roundtrip none [] rfl⟩

/-- C10: `update` on an id absent from the collection returns the 404
response before mutating anything: no save occurs and the persisted
collection is unchanged. -/
theorem c10_update_absent_no_save (posts : List Post) (post_id : Int)
    (title content author : Option String)
    (h : ∀ p ∈ posts, p.id ≠ post_id) :
    update posts post_id title content author = { resp := .notFound404, saved := none } := by
  simp [update, fetch_eq_none_of_absent posts post_id h]

theorem c10_witness :
    (∀ p ∈ ([{ id := 1, title := some "T", content := some "C",
               author := some "A", likes := some 0 }] : List Post), p.id ≠ 7) ∧
    update [{ id := 1, title := some "T", content := some "C",
              author := some "A", likes := some 0 }] 7 (some "N") none none =
      { resp := .notFound404, saved := none } := by
  refine ⟨by decide, c10_update_absent_no_save _ 7 (some "N") none none (by decide)⟩

/-- C3 counterexample: on a stored post whose `author` key is absent, an
update supplying only `title` does not leave the author field unchanged — the
code rewrites it to `"Anonymous"` (line 132-134), so the saved collection
differs from the claim's prediction (title replaced, all other fields
verbatim). -/
theorem c3_counterexample :
    (update [{ id := 1, title := some "T", content := some "C",
               author := none, likes := some 0 }] 1 (some "N") none none).saved ≠
      some [{ id := 1, title := some "N", content := some "C",
              author := none, likes := some 0 }] := by
  decide

/-- C3 (amended): updating the post with the given id supplying only `title`
replaces its title and leaves `content`, `likes`, `id` and every other post
unchanged; the `author` field keeps its prior value when present but is
materialized as `"Anonymous"` when it was absent. -/
theorem c3_update_title_only_amended (l : List Post) (p : Post) (r : List Post) (t : String)
    (hl : ∀ q ∈ l, q.id ≠ p.id) :
    update (l ++ p :: r) p.id (some t) none none =
      { resp := .redirectIndex
        saved := some (l ++ { p with title := some t
                                     author := some (p.author.getD "Anonymous") } :: r) } := by
  have hf := fetch_first_match l p r p.id hl rfl
  simp only [update, hf]
  rw [replaceFirst_first_match _ l p r p.id hl rfl]
  rfl

theorem c3_witness :
    (∀ q ∈ ([] : List Post), q.id ≠ (1 : Int)) ∧
    update [{ id := 1, title := some "T", content := some "C",
              author := some "A", likes := some 5 }] 1 (some "N") none none =
      { resp := .redirectIndex
        saved := some [{ id := 1, title := some "N", content := some "C",
                         author := some "A", likes := some 5 }] } :=
  ⟨by simp, c3_update_title_only_amended []
    { id := 1, title := some "T", content := some "C",
      author := some "A", likes := some 5 } [] "N" (by simp)⟩

/-- C4: `like` on the post with the given id increments its `likes` by
exactly one (initializing to 1 when the field was absent) and changes nothing
else; two consecutive likes add two, so a post created with `likes = 0` ends
at `likes = 2`. -/
theorem c4_like_increments (l : List Post) (p : Post) (r : List Post)
    (hl : ∀ q ∈ l, q.id ≠ p.id) :
    like (l ++ p :: r) p.id =
      { resp := .redirectIndex
        saved := some (l ++ { p with likes := some (p.likes.getD 0 + 1) } :: r) } ∧
    runOps (l ++ p :: r) [.likePost p.id, .likePost p.id] =
      l ++ { p with likes := some (p.likes.getD 0 + 2) } :: r ∧
    (p.likes = some 0 →
      runOps (l ++ p :: r) [.likePost p.id, .likePost p.id] =
        l ++ { p with likes := some 2 } :: r) := by
  have hf := fetch_first_match l p r p.id hl rfl
  have h1 : like (l ++ p :: r) p.id =
      { resp := .redirectIndex
        saved := some (l ++ { p with likes := some (p.likes.getD 0 + 1) } :: r) } := by
    simp only [like, hf]
    rw [replaceFirst_first_match _ l p r p.id hl rfl]
  have hstep1 : applyOp (l ++ p :: r) (.likePost p.id) =
      l ++ { p with likes := some (p.likes.getD 0 + 1) } :: r := by
    simp only [applyOp, h1, Option.getD_some]
  have hf2 := fetch_first_match l { p with likes := some (p.likes.getD 0 + 1) } r p.id hl rfl
  have h2 : like (l ++ { p with likes := some (p.likes.getD 0 + 1) } :: r) p.id =
      { resp := .redirectIndex
        saved := some (l ++ { p with likes := some (p.likes.getD 0 + 2) } :: r) } := by
    simp only [like, hf2]
    rw [replaceFirst_first_match _ l { p with likes := some (p.likes.getD 0 + 1) } r p.id hl rfl]
    have : p.likes.getD 0 + 1 + 1 = p.likes.getD 0 + 2 := by omega
    simp [this]
  have hrun : runOps (l ++ p :: r) [.likePost p.id, .likePost p.id] =
      l ++ { p with likes := some (p.likes.getD 0 + 2) } :: r := by
    show runOps (applyOp (applyOp (l ++ p :: r) (.likePost p.id)) (.likePost p.id)) [] =
      l ++ { p with likes := some (p.likes.getD 0 + 2) } :: r
    rw [hstep1]
    show applyOp (l ++ { p with likes := some (p.likes.getD 0 + 1) } :: r) (.likePost p.id) =
      l ++ { p with likes := some (p.likes.getD 0 + 2) } :: r
    simp only [applyOp, h2, Option.getD_some]
  refine ⟨h1, hrun, fun h0 => ?_⟩
  rw [hrun, h0]
  rfl

theorem c4_witness :
    (∀ q ∈ ([] : List Post), q.id ≠ (1 : Int)) ∧
    like [{ id := 1, title := some "T", content := some "C",
            author := some "A", likes := some 0 }] 1 =
      { resp := .redirectIndex
        saved := some [{ id := 1, title := some "T", content := some "C",
                         author := some "A", likes := some 1 }] } ∧
    runOps [{ id := 1, title := some "T", content := some "C",
              author := some "A", likes := some 0 }] [.likePost 1, .likePost 1] =
      [{ id := 1, title := some "T", content := some "C",
         author := some "A", likes := some 2 }] ∧
    ((some 0 : Option Int) = some 0 →
      runOps [{ id := 1, title := some "T", content := some "C",
                author := some "A", likes := some 0 }] [.likePost 1, .likePost 1] =
        [{ id := 1, title := some "T", content := some "C",
           author := some "A", likes := some 2 }]) :=
  ⟨by simp, c4_like_increments []
    { id := 1, title := some "T", content := some "C",
      author := some "A", likes := some 0 } [] (by simp)⟩

/-- C6: `delete` always responds with a redirect and always saves; the saved
collection is the original with exactly the matching posts removed — an
order-preserving subsequence containing every non-matching post — and when no
post matches, the very same collection is re-persisted. -/
theorem c6_delete_filters_and_saves (posts : List Post) (post_id : Int) :
    (delete posts post_id).resp = .redirectIndex ∧
    ∃ kept, (delete posts post_id).saved = some kept ∧
      kept.Sublist posts ∧
      (∀ p ∈ kept, p.id ≠ post_id) ∧
      (∀ p ∈ posts, p.id ≠ post_id → p ∈ kept) ∧
      ((∀ p ∈ posts, p.id ≠ post_id) → kept = posts) := by
  refine ⟨rfl, posts.filter (fun post => post.id ≠ post_id), rfl, List.filter_sublist posts,
    ?_, ?_, ?_⟩
  · intro p hp
    simpa using (List.mem_filter.mp hp).2
  · intro p hp hne
    exact List.mem_filter.mpr ⟨hp, by simpa using hne⟩
  · intro h
    apply List.filter_eq_self.mpr
    intro a ha
    simpa using h a ha

theorem c6_witness :
    (delete [{ id := 1, title := some "T", content := some "C",
               author := some "A", likes := some 0 }] 7).resp = .redirectIndex ∧
    ∃ kept, (delete [{ id := 1, title := some "T", content := some "C",
                       author := some "A", likes := some 0 }] 7).saved = some kept ∧
      kept.Sublist [{ id := 1, title := some "T", content := some "C",
                      author := some "A", likes := some 0 }] ∧
      (∀ p ∈ kept, p.id ≠ 7) ∧
      (∀ p ∈ ([{ id := 1, title := some "T", content := some "C",
                 author := some "A", likes := some 0 }] : List Post), p.id ≠ 7 → p ∈ kept) ∧
      ((∀ p ∈ ([{ id := 1, title := some "T", content := some "C",
                  author := some "A", likes := some 0 }] : List Post), p.id ≠ 7) →
        kept = [{ id := 1, title := some "T", content := some "C",
                  author := some "A", likes := some 0 }]) :=
  c6_delete_filters_and_saves
    [{ id := 1, title := some "T", content := some "C",
       author := some "A", likes := some 0 }] 7

/-- C8: the scan of `fetch_post_by_id` is total and returns `none` exactly
when no post in the collection has the given id; whenever it returns a post,
that post matches and is the first match — every post strictly before it in
the collection has a different id. -/
theorem c8_fetch_first_match_or_none (posts : List Post) (post_id : Int) :
    (fetch_post_by_id posts post_id = none ↔ ∀ q ∈ posts, q.id ≠ post_id) ∧
    (∀ p, fetch_post_by_id posts post_id = some p →
      p.id = post_id ∧ ∃ l r, posts = l ++ p :: r ∧ ∀ q ∈ l, q.id ≠ post_id) := by
  induction posts with
  | nil =>
    refine ⟨by simp [fetch_post_by_id], ?_⟩
    intro p hp
    simp [fetch_post_by_id] at hp
  | cons q rest ih =>
    by_cases hq : q.id = post_id
    · refine ⟨⟨?_, ?_⟩, ?_⟩
      · intro h
        rw [fetch_post_by_id, if_pos hq] at h
        exact absurd h (by simp)
      · intro h
        exact absurd hq (h q (List.mem_cons_self q rest))
      · intro p hp
        rw [fetch_post_by_id, if_pos hq] at hp
        obtain rfl := Option.some.inj hp
        exact ⟨hq, [], rest, rfl, by simp⟩
    · have hfe : fetch_post_by_id (q :: rest) post_id = fetch_post_by_id rest post_id := by
        rw [fetch_post_by_id, if_neg hq]
      refine ⟨?_, ?_⟩
      · rw [hfe, ih.1]
        constructor
        · intro h x hx
          rcases List.mem_cons.mp hx with rfl | hx'
          · exact hq
          · exact h x hx'
        · intro h x hx
          exact h x (List.mem_cons_of_mem q hx)
      · intro p hp
        rw [hfe] at hp
        obtain ⟨hpid, l, r, hsplit, hclean⟩ := ih.2 p hp
        refine ⟨hpid, q :: l, r, by rw [hsplit]; rfl, ?_⟩
        intro x hx
        rcases List.mem_cons.mp hx with rfl | hx'
        · exact hq
        · exact hclean x hx'

theorem c8_witness :
    (fetch_post_by_id [{ id := 1, title := some "T", content := some "C",
                         author := some "A", likes := some 0 },
                       { id := 2, title := some "U", content := some "D",
                         author := some "B", likes := some 1 }] 2 = none ↔
      ∀ q ∈ ([{ id := 1, title := some "T", content := some "C",
                author := some "A", likes := some 0 },
              { id := 2, title := some "U", content := some "D",
                author := some "B", likes := some 1 }] : List Post), q.id ≠ 2) ∧
    (∀ p, fetch_post_by_id [{ id := 1, title := some "T", content := some "C",
                              author := some "A", likes := some 0 },
                            { id := 2, title := some "U", content := some "D",
                              author := some "B", likes := some 1 }] 2 = some p →
      p.id = 2 ∧ ∃ l r, ([{ id := 1, title := some "T", content := some "C",
                            author := some "A", likes := some 0 },
                          { id := 2, title := some "U", content := some "D",
                            author := some "B", likes := some 1 }] : List Post) = l ++ p :: r ∧
        ∀ q ∈ l, q.id ≠ 2) :=
  c8_fetch_first_match_or_none
    [{ id := 1, title := some "T", content := some "C",
       author := some "A", likes := some 0 },
     { id := 2, title := some "U", content := some "D",
       author := some "B", likes := some 1 }] 2

/-- Invariant carried through a run of Create calls: when every post of the
accumulated collection already has `id = position + 1` and `likes = 0`, the
collection after further creates satisfies the same, since `add` appends a
post with `id = length + 1` and `likes = 0`. -/
theorem createsInvariantAux (forms : List (Option String × Option String × Option String))
    (posts : List Post)
    (hinv : ∀ i (h : i < posts.length),
      (posts.get ⟨i, h⟩).id = (i : Int) + 1 ∧ (posts.get ⟨i, h⟩).likes = some 0) :
    ∀ i (h : i < (runOps posts (forms.map (fun f => Op.create f.1 f.2.1 f.2.2))).length),
      ((runOps posts (forms.map (fun f => Op.create f.1 f.2.1 f.2.2))).get ⟨i, h⟩).id =
        (i : Int) + 1 ∧
      ((runOps posts (forms.map (fun f => Op.create f.1 f.2.1 f.2.2))).get ⟨i, h⟩).likes =
        some 0 := by
  induction forms generalizing posts with
  | nil => exact hinv
  | cons f fs ih =>
    have hstep : runOps posts ((f :: fs).map (fun f => Op.create f.1 f.2.1 f.2.2)) =
        runOps (posts ++ [new_post posts f.1 f.2.1 f.2.2])
          (fs.map (fun f => Op.create f.1 f.2.1 f.2.2)) := rfl
    rw [hstep]
    apply ih
    intro i h
    have hlen : (posts ++ [new_post posts f.1 f.2.1 f.2.2]).length = posts.length + 1 := by
      simp
    rcases Nat.lt_succ_iff_lt_or_eq.mp (hlen ▸ h) with hi | hi
    · have hget : (posts ++ [new_post posts f.1 f.2.1 f.2.2]).get ⟨i, h⟩ =
          posts.get ⟨i, hi⟩ := by
        simp [List.get_eq_getElem, List.getElem_append_left hi]
      rw [hget]
      exact hinv i hi
    · subst hi
      have hget : (posts ++ [new_post posts f.1 f.2.1 f.2.2]).get ⟨posts.length, h⟩ =
          new_post posts f.1 f.2.1 f.2.2 := by
        simp [List.get_eq_getElem]
      rw [hget]
      exact ⟨rfl, rfl⟩

/-- C2: after any sequence of Create calls on the initially empty store, the
post at position `i` of the resulting collection — i.e. the `(i+1)`-st
created post — has `id = i + 1` and `likes = 0`; in particular the Nth
created post has `id = N` and `likes = 0`. -/
theorem c2_nth_create_id_and_likes
    (forms : List (Option String × Option String × Option String))
    (i : Nat) (h : i < (runCreates forms).length) :
    ((runCreates forms).get ⟨i, h⟩).id = (i : Int) + 1 ∧
    ((runCreates forms).get ⟨i, h⟩).likes = some 0 :=
  createsInvariantAux forms [] (fun i hi => absurd hi (by simp)) i h

theorem c2_witness :
    ((runCreates [(some "A", some "a", none), (some "B", some "b", none)]).get
      ⟨1, by decide⟩).id = 2 ∧
    ((runCreates [(some "A", some "a", none), (some "B", some "b", none)]).get
      ⟨1, by decide⟩).likes = some 0 :=
  c2_nth_create_id_and_likes [(some "A", some "a", none), (some "B", some "b", none)] 1
    (by decide)

end MasterBlog
